import Mathlib

/-!
Shallow embedding of `neuralforecast/tsdataset.py` (the ragged time-series
store `TimeSeriesDataset`): the data model, the window accessor
`__getitem__`, structural equality `__eq__`, the converter `from_df` and
the merger `update_dataset`, together with theorems settling the spec
claims about them.

Modelling conventions:
* Table/tensor cells are `Option Int`: `none` models Python `None` and the
  float NaN it becomes; the float conversion
  `torch.tensor(-, dtype=torch.float)` is modelled as the identity on exact
  payloads, since the code only ever copies cell values around.
* Stateful Python is turned into explicit state passing: a method that can
  raise returns `Except PyErr`, and the post-call state of a mutated (or
  untouched) argument is an explicit function of the inputs.
* A 2-D torch tensor is a row list plus its definite column count `ncols`
  (meaningful even for zero rows), mirroring tensor shapes.
-/

set_option linter.unusedVariables false

namespace NFTS

/-- Cell value: `none` models Python `None` / NaN, `some v` an exact numeric
payload. -/
abbrev Val := Option Int

/-- One row of a long-format frame: group key `unique_id`, timestamp `ds`,
and the feature-column values in column order. -/
structure Row where
  uid : Nat
  ds : Nat
  vals : List Val
deriving DecidableEq

/-- Long-format table with named feature columns `cols`; the group key and
timestamp are held apart (as pandas index levels after `set_index`). -/
structure DataFrame where
  cols : List String
  rows : List Row
deriving DecidableEq

/-- Static table: one keyed row per group plus its column names. -/
structure StaticDF where
  cols : List String
  rows : List (Nat × List Val)
deriving DecidableEq

/-- Two-dimensional tensor: rows plus the definite column count carried by
the tensor's shape. -/
structure Tensor2 where
  rows : List (List Val)
  ncols : Nat
deriving DecidableEq

/-- Shape well-formedness of a tensor: every row has exactly `ncols` cells. -/
def Tensor2.WF (t : Tensor2) : Prop := ∀ r ∈ t.rows, r.length = t.ncols

/-- Python error kinds raised (or named by the spec) around the store. -/
inductive PyErr where
  | valueError
  | indexError
  | runtimeError
  | attributeError
  | mismatchedGroupsError
  | staticAlignmentError
deriving DecidableEq

/-- Index argument passed to `__getitem__`: a Python `int` or anything else. -/
inductive PyIdx where
  | int (i : Int)
  | nonInt
deriving DecidableEq

/-- The attribute state of a `TimeSeriesDataset` instance, exactly the
attributes `__init__` assigns (lines 78-94 of tsdataset.py). -/
structure TimeSeriesDataset where
  temporal : Tensor2
  temporal_cols : List String
  indptr : List Nat
  max_size : Nat
  static : Option Tensor2
  static_cols : Option (List String)
  updated : Bool
  sorted : Bool
deriving DecidableEq

namespace TimeSeriesDataset

/-- Embeds `TimeSeriesDataset.__init__`: stores the tensors, appends the
synthetic `available_mask` label to the given column labels, records
`indptr`, `max_size`, flags `updated = False` and the given `sorted`. -/
def construct (temporal : Tensor2) (temporal_cols : List String) (indptr : List Nat)
    (max_size : Nat) (static : Option Tensor2) (static_cols : Option (List String))
    (sorted : Bool) : TimeSeriesDataset :=
  { temporal := temporal
    temporal_cols := temporal_cols ++ ["available_mask"]
    indptr := indptr
    max_size := max_size
    static := static
    static_cols := static_cols
    updated := false
    sorted := sorted }

/-- Embeds `self.n_groups = self.indptr.size - 1`. -/
def n_groups (d : TimeSeriesDataset) : Nat := d.indptr.length - 1

/-- Length of group `i`: `indptr[i+1] - indptr[i]` (the formula the source
uses at lines 101 and 153). -/
def groupLen (d : TimeSeriesDataset) (i : Nat) : Nat :=
  d.indptr.getD (i + 1) 0 - d.indptr.getD i 0

end TimeSeriesDataset

/-- Integer indexing of a numpy/torch array along its first axis: negative
indices wrap by adding the length, anything still out of bounds raises
IndexError. -/
def npGet {α : Type} (xs : List α) (dflt : α) (i : Int) : Except PyErr α :=
  if 0 ≤ i then
    if i < (xs.length : Int) then Except.ok (xs.getD i.toNat dflt)
    else Except.error PyErr.indexError
  else
    if 0 ≤ i + (xs.length : Int) then Except.ok (xs.getD (i + (xs.length : Int)).toNat dflt)
    else Except.error PyErr.indexError

/-- Python slice `xs[a:b]` with non-negative bounds (clamping, empty when
`b ≤ a`). -/
def pySlice {α : Type} (xs : List α) (a b : Nat) : List α := (xs.drop a).take (b - a)

/-- Sequencing of two Python statements where the first may raise: the
exception propagates, otherwise execution continues with the value. -/
def ebind {α β : Type} (x : Except PyErr α) (f : α → Except PyErr β) : Except PyErr β :=
  match x with
  | Except.error e => Except.error e
  | Except.ok a => f a

namespace TimeSeriesDataset

/-- Embeds the window construction of `__getitem__` (lines 99-105): a zero
tensor of shape `(nCols, mSize)` receives `ts.permute(1, 0)` on its feature
rows at columns `[-L:]` and `1` on its mask row at columns `[-L:]`, where
`L = len(ts)`.  Python semantics of `[-L:]`: for `L = 0` it is the full
width, otherwise the last `min L mSize` columns.  The feature assignment is
a torch broadcast: each source dimension must equal the destination
dimension or be `1`, otherwise RuntimeError; the mask write indexes row
`nCols - 1`, an IndexError when the window has no rows. -/
def buildWindow (ts : Tensor2) (nCols mSize : Nat) : Except PyErr (List (List Val)) :=
  let L := ts.rows.length
  let start := if L = 0 then 0 else mSize - L
  let W := mSize - start
  if (ts.ncols = nCols - 1 ∨ ts.ncols = 1) ∧ (L = W ∨ L = 1) then
    if nCols = 0 then Except.error PyErr.indexError
    else
      Except.ok ((List.range (nCols - 1)).map (fun c =>
          List.replicate start (some (0 : Int)) ++
            (List.range W).map (fun j =>
              (ts.rows.getD (if L = 1 then 0 else j) []).getD
                (if ts.ncols = 1 then 0 else c) (some 0))) ++
        [List.replicate start (some (0 : Int)) ++ List.replicate W (some (1 : Int))])
  else Except.error PyErr.runtimeError

/-- The record returned by `__getitem__`. -/
structure Item where
  temporal : List (List Val)
  temporal_cols : List String
  static : Option (List Val)
  static_cols : Option (List String)
deriving DecidableEq

/-- Embeds `__getitem__` (lines 96-114): a non-`int` index raises
ValueError; an `int` index reads `indptr[idx]` and `indptr[idx + 1]` with
numpy integer-index semantics, slices the temporal rows, builds the padded
window, and fetches the static row `static[idx, :]` when static data is
present. -/
def getitem (d : TimeSeriesDataset) (idx : PyIdx) : Except PyErr Item :=
  match idx with
  | PyIdx.nonInt => Except.error PyErr.valueError
  | PyIdx.int i =>
    ebind (npGet d.indptr 0 i) (fun a =>
    ebind (npGet d.indptr 0 (i + 1)) (fun b =>
    ebind (buildWindow { rows := pySlice d.temporal.rows a b, ncols := d.temporal.ncols }
        d.temporal_cols.length d.max_size) (fun w =>
    ebind (match d.static with
           | none => Except.ok none
           | some s => ebind (npGet s.rows [] i) (fun srow => Except.ok (some srow)))
      (fun st =>
    Except.ok { temporal := w, temporal_cols := d.temporal_cols,
                static := st, static_cols := d.static_cols }))))

/-- Result of `hasattr(x, 'data')` on a `TimeSeriesDataset` instance:
`__init__` assigns `temporal`, `temporal_cols`, `static`, `static_cols`,
`indptr`, `n_groups`, `max_size`, `updated` and `sorted`, and no method of
the class (nor its `Dataset` base) ever assigns an attribute named `data`,
so the test is always false. -/
def hasattrData (_d : TimeSeriesDataset) : Bool := false

/-- Result of `hasattr(x, 'indptr')` on a `TimeSeriesDataset` instance:
`__init__` always assigns `indptr`. -/
def hasattrIndptr (_d : TimeSeriesDataset) : Bool := true

/-- Embeds `__eq__` (lines 122-125): `if not hasattr(other, 'data') or not
hasattr(other, 'indptr'): return False`, else compare `np.allclose(self.data,
other.data)` and `np.array_equal(self.indptr, other.indptr)`.  Reaching the
comparison would itself raise AttributeError, because `self.data` never
exists on the class; between two stores the guard already yields `False`. -/
def eq (self other : TimeSeriesDataset) : Except PyErr Bool :=
  if ¬ (hasattrData other = true) ∨ ¬ (hasattrIndptr other = true) then Except.ok false
  else Except.error PyErr.attributeError

end TimeSeriesDataset

/-- Lexicographic order on the `(unique_id, ds)` MultiIndex. -/
def lexLe (a b : Row) : Prop := a.uid < b.uid ∨ (a.uid = b.uid ∧ a.ds ≤ b.ds)

instance : DecidableRel lexLe := fun a b => by unfold lexLe; exact inferInstance

/-- Embeds `df.index.is_monotonic_increasing` on the `(unique_id, ds)`
index. -/
def monoB : List Row → Bool
  | [] => true
  | [_] => true
  | a :: b :: t => decide (lexLe a b) && monoB (b :: t)

/-- Embeds `static_df.sort_index()` (sort by `unique_id`, stable). -/
def sortStatic (s : StaticDF) : StaticDF :=
  { cols := s.cols, rows := List.insertionSort (fun a b => a.1 ≤ b.1) s.rows }

/-- Group keys in first-seen order, as
`value_counts(sort=False)` enumerates them. -/
def firstSeenKeys : List Row → List Nat
  | [] => []
  | r :: t => r.uid :: (firstSeenKeys t).filter (fun k => k ≠ r.uid)

/-- Number of rows carrying group key `k`. -/
def countKey (rows : List Row) (k : Nat) : Nat :=
  (rows.filter (fun r => r.uid == k)).length

/-- Cumulative sums of `l` starting from `acc` (numpy `cumsum` shifted by
`acc`). -/
def cumsumFrom (acc : Nat) : List Nat → List Nat
  | [] => []
  | x :: t => (acc + x) :: cumsumFrom (acc + x) t

/-- Binary maximum in the shape the source writes it
(`if new_length > new_max_size` at line 161; Python `max` folds the same
way). -/
def natMax (a b : Nat) : Nat := if b > a then b else a

namespace TimeSeriesDataset

/-- What `from_df` (lines 175-216) returns alongside the dataset. -/
structure FromDfResult where
  dataset : TimeSeriesDataset
  indices : List Nat
  dates : List Nat
  index : List (Nat × Nat)
deriving DecidableEq

/-- The rows `from_df` lays out: sorted by the `(unique_id, ds)` index when
it is not already monotone and sorting was requested, unchanged otherwise
(lines 187-188). -/
def fdRows (df : DataFrame) (sort_df : Bool) : List Row :=
  if (!monoB df.rows) && sort_df then List.insertionSort lexLe df.rows else df.rows

/-- The per-group sizes `value_counts(sort=False)` yields inside `from_df`
(line 196): row counts per key in first-seen key order. -/
def fdSizes (df : DataFrame) (sort_df : Bool) : List Nat :=
  (firstSeenKeys (fdRows df sort_df)).map (countKey (fdRows df sort_df))

/-- Embeds `from_df` (lines 175-216): optionally sort by the
`(unique_id, ds)` index (the static table is sorted only in that same
branch), take the feature values as the temporal buffer, count rows per
group key in first-seen order, let `max_size = max(sizes)` (ValueError on an
empty table), build `indptr` as the 0-prefixed cumulative sizes, and attach
the static values verbatim — the code contains no alignment check, only the
comment `TODO: protect on equality of static_df + df indexes`. -/
def from_df (df : DataFrame) (static_df : Option StaticDF) (sort_df : Bool) :
    Except PyErr FromDfResult :=
  let dfRows := fdRows df sort_df
  let sdf := if (!monoB df.rows) && sort_df then static_df.map sortStatic else static_df
  let sizes := fdSizes df sort_df
  if sizes.isEmpty then Except.error PyErr.valueError
  else
    let cum := cumsumFrom 0 sizes
    Except.ok
      { dataset := construct { rows := dfRows.map Row.vals, ncols := df.cols.length } df.cols
          (0 :: cum) (sizes.foldl natMax 0)
          (sdf.map (fun s => ({ rows := s.rows.map Prod.snd, ncols := s.cols.length } : Tensor2)))
          (sdf.map (fun s => s.cols)) sort_df
        indices := firstSeenKeys dfRows
        dates := cum.map (fun c => (dfRows.getD (c - 1) { uid := 0, ds := 0, vals := [] }).ds)
        index := dfRows.map (fun r => (r.uid, r.ds)) }

end TimeSeriesDataset

/-- Value of column `c` of row `r` in frame `df` (columns are looked up by
name; in the merge flow every looked-up column exists). -/
def lookupCol (df : DataFrame) (c : String) (r : Row) : Val :=
  r.vals.getD (df.cols.indexOf c) none

/-- Appending a column filled with `None` to a frame, as the statement
`future_df[col] = None` does. -/
def addColNone (df : DataFrame) (c : String) : DataFrame :=
  { cols := df.cols ++ [c]
    rows := df.rows.map (fun r => { r with vals := r.vals ++ [none] }) }

namespace TimeSeriesDataset

/-- The caller-visible state of the `future_df` object after
`update_dataset` returns: the loop at lines 135-137 assigns
`future_df[col] = None` in place for every stored feature channel missing
from its columns.  (The later `future_df = future_df[...]` at line 140 only
rebinds the local name and does not affect the caller's object.) -/
def futureDfAfterColumnAdd (dataset : TimeSeriesDataset) (future_df : DataFrame) : DataFrame :=
  (dataset.temporal_cols.dropLast).foldl
    (fun df c => if c ∈ df.cols then df else addColNone df c) future_df

/-- Embeds line 140, `future_df = future_df[['unique_id','ds'] +
temporal_cols.tolist()]`: select and reorder the feature columns to match
the stored channel order. -/
def reorderColumns (df : DataFrame) (tcols : List String) : DataFrame :=
  { cols := tcols
    rows := df.rows.map (fun r => { r with vals := tcols.map (fun c => lookupCol df c r) }) }

/-- Loop state of the merge loop at lines 148-162. -/
structure MergeState where
  new_temporal : List (List Val)
  new_indptr : List Nat
  new_max_size : Nat
  acum : Nat
deriving DecidableEq

/-- Torch slice assignment `buf[a:b, :] = src`: the slice bounds clamp to
the buffer, then the source must broadcast to the destination shape (each
source dimension equal to the destination one or `1`), else RuntimeError. -/
def assignRows (buf : List (List Val)) (a b : Nat) (src : Tensor2) (bufNcols : Nat) :
    Except PyErr (List (List Val)) :=
  let lo := min a buf.length
  let hi := min b buf.length
  let dstRows := hi - lo
  if (src.rows.length = dstRows ∨ src.rows.length = 1) ∧
      (src.ncols = bufNcols ∨ src.ncols = 1) then
    Except.ok (buf.take lo ++
      (List.range dstRows).map (fun j =>
        let r := src.rows.getD (if src.rows.length = 1 then 0 else j) []
        if src.ncols = 1 then List.replicate bufNcols (r.getD 0 none) else r) ++
      buf.drop (lo + dstRows))
  else Except.error PyErr.runtimeError

/-- One iteration of the merge loop (lines 152-162): read the old and
future group lengths (`futr_dataset.indptr[i + 1]` may be out of bounds —
IndexError), copy the old rows then the future rows into the new buffer,
advance `acum`, append it to `new_indptr`, and bump `new_max_size`. -/
def mergeStep (dataset futr : TimeSeriesDataset) (colT : Nat) (st : MergeState) (i : Nat) :
    Except PyErr MergeState :=
  let sl := groupLen dataset i
  if i + 1 < futr.indptr.length then
    let fl := groupLen futr i
    let nl := sl + fl
    ebind (assignRows st.new_temporal st.acum (st.acum + sl)
        { rows := pySlice dataset.temporal.rows (dataset.indptr.getD i 0)
            (dataset.indptr.getD (i + 1) 0)
          ncols := dataset.temporal.ncols } colT) (fun t1 =>
    ebind (assignRows t1 (st.acum + sl) (st.acum + nl)
        { rows := pySlice futr.temporal.rows (futr.indptr.getD i 0)
            (futr.indptr.getD (i + 1) 0)
          ncols := futr.temporal.ncols } colT) (fun t2 =>
    Except.ok { new_temporal := t2
                new_indptr := st.new_indptr ++ [st.acum + nl]
                new_max_size := if nl > st.new_max_size then nl else st.new_max_size
                acum := st.acum + nl }))
  else Except.error PyErr.indexError

/-- The `for i in range(dataset.n_groups)` loop of `update_dataset`
(lines 152-162), threading the loop state and propagating any raise. -/
def mergeLoop (dataset futr : TimeSeriesDataset) (colT : Nat) :
    MergeState → List Nat → Except PyErr MergeState
  | st, [] => Except.ok st
  | st, i :: is => ebind (mergeStep dataset futr colT st i)
      (fun st2 => mergeLoop dataset futr colT st2 is)

/-- Embeds `update_dataset` (lines 127-173): add the missing feature
columns to `future_df` (filled with `None`), reorder its columns to the
stored channel order, convert it with `from_df` under the store's sort
policy, allocate a zero buffer of `len(temporal) + len(future_df)` rows,
run the merge loop over the store's groups, and construct the new dataset
from the merged buffer, the original channel labels and static data. -/
def update_dataset (dataset : TimeSeriesDataset) (future_df : DataFrame) :
    Except PyErr TimeSeriesDataset :=
  let temporal_cols := dataset.temporal_cols.dropLast
  let fdf2 := reorderColumns (futureDfAfterColumnAdd dataset future_df) temporal_cols
  ebind (from_df fdf2 none dataset.sorted) (fun fr =>
  ebind (mergeLoop dataset fr.dataset dataset.temporal.ncols
      { new_temporal :=
          List.replicate (dataset.temporal.rows.length + fdf2.rows.length)
            (List.replicate dataset.temporal.ncols (some 0))
        new_indptr := [0], new_max_size := 0, acum := 0 }
      (List.range (n_groups dataset))) (fun st =>
  Except.ok (construct { rows := st.new_temporal, ncols := dataset.temporal.ncols } temporal_cols
    st.new_indptr st.new_max_size dataset.static dataset.static_cols dataset.sorted)))

/-- The state of the `dataset` argument after `update_dataset` returns: the
body (lines 131-173) reads `dataset.temporal_cols`, `dataset.sorted`,
`dataset.from_df`, `dataset.temporal`, `dataset.n_groups`,
`dataset.indptr`, `dataset.static` and `dataset.static_cols` but contains
no assignment to any attribute of `dataset`, so the argument comes back
unchanged. -/
def update_dataset_datasetPost (dataset : TimeSeriesDataset) (_future_df : DataFrame) :
    TimeSeriesDataset := dataset

/-- The rows of group `i` inside the flat temporal buffer. -/
def groupRows (d : TimeSeriesDataset) (i : Nat) : List (List Val) :=
  pySlice d.temporal.rows (d.indptr.getD i 0) (d.indptr.getD (i + 1) 0)

/-- Maximal group length of a store. -/
def maxGroupLen (d : TimeSeriesDataset) : Nat :=
  ((List.range (n_groups d)).map (groupLen d)).foldl natMax 0

/-- The offset invariants of the spec data model: `offset[0] = 0`,
non-decreasing offsets, and the last offset equals the temporal row
count. -/
def offsetInvariants (d : TimeSeriesDataset) : Prop :=
  d.indptr.getD 0 0 = 0 ∧ List.Pairwise (· ≤ ·) d.indptr ∧
    d.indptr.getLast? = some d.temporal.rows.length

/-- Well-formedness of a store, as the converter and the merger establish
it: shape-consistent temporal tensor, monotone non-empty offsets ending at
the row count, channel labels one longer than the tensor width (the mask
label), group lengths bounded by `max_size`, and a static row per group
when static data is present. -/
def WF (d : TimeSeriesDataset) : Prop :=
  d.temporal.WF ∧
  List.Pairwise (· ≤ ·) d.indptr ∧
  d.indptr ≠ [] ∧
  d.indptr.getLast? = some d.temporal.rows.length ∧
  d.temporal_cols.length = d.temporal.ncols + 1 ∧
  (∀ i, i < n_groups d → groupLen d i ≤ d.max_size) ∧
  d.static.all (fun s => s.rows.length == n_groups d) = true

end TimeSeriesDataset

instance {α β : Type} [DecidableEq α] [DecidableEq β] : DecidableEq (Except α β) := fun x y =>
  match x, y with
  | Except.ok a, Except.ok b =>
    if h : a = b then isTrue (by rw [h]) else isFalse (by intro he; cases he; exact h rfl)
  | Except.error a, Except.error b =>
    if h : a = b then isTrue (by rw [h]) else isFalse (by intro he; cases he; exact h rfl)
  | Except.ok _, Except.error _ => isFalse (by intro he; cases he)
  | Except.error _, Except.ok _ => isFalse (by intro he; cases he)

instance (t : Tensor2) : Decidable t.WF := by
  unfold Tensor2.WF
  infer_instance

instance (d : TimeSeriesDataset) : Decidable (TimeSeriesDataset.WF d) := by
  unfold TimeSeriesDataset.WF
  infer_instance

instance (d : TimeSeriesDataset) : Decidable (TimeSeriesDataset.offsetInvariants d) := by
  unfold TimeSeriesDataset.offsetInvariants
  infer_instance

end NFTS

namespace NFTS

/-- Example store of spec section 8: group `1` holds `[1, 2, 3]`, group `2`
holds `[5]`, one feature channel `y`, `max_size = 3`. -/
def exStore : TimeSeriesDataset :=
  TimeSeriesDataset.construct { rows := [[some 1], [some 2], [some 3], [some 5]], ncols := 1 }
    ["y"] [0, 3, 4] 3 none none false

/-- The section-8 example store extended with one static row per group
(`7` for group `1`, `8` for group `2`). -/
def exStoreS : TimeSeriesDataset :=
  TimeSeriesDataset.construct { rows := [[some 1], [some 2], [some 3], [some 5]], ncols := 1 }
    ["y"] [0, 3, 4] 3 (some { rows := [[some 7], [some 8]], ncols := 1 }) (some ["s"]) false

/-- Store whose group `0` is empty (`indptr = [0, 0, 1]`) and group `1`
holds `[5]`. -/
def exEmptyGroupStore : TimeSeriesDataset :=
  TimeSeriesDataset.construct { rows := [[some 5]], ncols := 1 } ["y"] [0, 0, 1] 1
    none none false

/-- One-row long-format table: group `1`, timestamp `1`, `y = 1`. -/
def exDf1 : DataFrame := { cols := ["y"], rows := [{ uid := 1, ds := 1, vals := [some 1] }] }

/-- The store `from_df exDf1 none false` produces. -/
def exD : TimeSeriesDataset :=
  TimeSeriesDataset.construct { rows := [[some 1]], ncols := 1 } ["y"] [0, 1] 1
    none none false

/-- Future table extending group `1` by one row. -/
def exF2 : DataFrame := { cols := ["y"], rows := [{ uid := 1, ds := 2, vals := [some 6] }] }

/-- The future store that converting `exF2` yields inside the merge. -/
def exFutrD : TimeSeriesDataset :=
  TimeSeriesDataset.construct { rows := [[some 6]], ncols := 1 } ["y"] [0, 1] 1
    none none false

/-- Full converter result for `exF2` inside the merge of `exD`. -/
def exFr : TimeSeriesDataset.FromDfResult :=
  { dataset := exFutrD, indices := [1], dates := [2], index := [(1, 2)] }

/-- The merged store `update_dataset exD exF2` returns. -/
def exDNew : TimeSeriesDataset :=
  TimeSeriesDataset.construct { rows := [[some 1], [some 6]], ncols := 1 } ["y"] [0, 2] 2
    none none false

/-- Future table with an extra group `2` the store does not have. -/
def exF4 : DataFrame :=
  { cols := ["y"], rows := [{ uid := 1, ds := 2, vals := [some 6] },
                            { uid := 2, ds := 2, vals := [some 7] }] }

/-- Two-group table: group `1` then group `2`, one row each. -/
def exDf5 : DataFrame :=
  { cols := ["y"], rows := [{ uid := 1, ds := 1, vals := [some 1] },
                            { uid := 2, ds := 1, vals := [some 5] }] }

/-- The store `from_df exDf5 none false` produces (groups in order `1, 2`). -/
def exD5 : TimeSeriesDataset :=
  TimeSeriesDataset.construct { rows := [[some 1], [some 5]], ncols := 1 } ["y"] [0, 1, 2] 1
    none none false

/-- Future table whose groups come in the opposite order `2, 1`. -/
def exF5 : DataFrame :=
  { cols := ["y"], rows := [{ uid := 2, ds := 2, vals := [some 60] },
                            { uid := 1, ds := 2, vals := [some 70] }] }

/-- Static table keyed by group `2`, which `exDf1` does not contain. -/
def exS8 : StaticDF := { cols := ["s"], rows := [(2, [some 9])] }

/-- Store with two feature channels `y`, `x`. -/
def exDx : TimeSeriesDataset :=
  TimeSeriesDataset.construct { rows := [[some 1, some 2]], ncols := 2 } ["y", "x"] [0, 1] 1
    none none false

theorem ebind_ok {α β : Type} (a : α) (f : α → Except PyErr β) :
    ebind (Except.ok a) f = f a := rfl

theorem ebind_error {α β : Type} (e : PyErr) (f : α → Except PyErr β) :
    ebind (Except.error e) f = Except.error e := rfl

section ListLemmas

variable {α : Type} {β : Type}

theorem map_range_getD (l : List α) (g : α → β) (d : α) :
    (List.range l.length).map (fun j => g (l.getD j d)) = l.map g := by
  induction l with
  | nil => simp
  | cons x t ih =>
    rw [List.length_cons, List.range_succ_eq_map, List.map_cons, List.map_map]
    refine congrArg₂ (· :: ·) rfl ?_
    calc (List.range t.length).map ((fun j => g ((x :: t).getD j d)) ∘ Nat.succ)
        = (List.range t.length).map (fun j => g (t.getD j d)) := by
          refine List.map_congr_left ?_
          intro j hj
          simp [Function.comp]
      _ = t.map g := ih

theorem getD_map_range {n i : Nat} (f : Nat → β) (dflt : β) (h : i < n) :
    ((List.range n).map f).getD i dflt = f i := by
  rw [List.getD_eq_getElem?_getD, List.getElem?_map, List.getElem?_range h]
  rfl

theorem pairwise_getD_mono {xs : List Nat} (hp : List.Pairwise (· ≤ ·) xs)
    {i j : Nat} (hij : i ≤ j) (hj : j < xs.length) : xs.getD i 0 ≤ xs.getD j 0 := by
  rcases Nat.eq_or_lt_of_le hij with rfl | hlt
  · exact Nat.le_refl _
  · have hi : i < xs.length := Nat.lt_trans hlt hj
    rw [List.getD_eq_getElem?_getD, List.getD_eq_getElem?_getD,
      List.getElem?_eq_getElem hi, List.getElem?_eq_getElem hj]
    exact List.pairwise_iff_getElem.mp hp i j hi hj hlt

theorem getLast?_eq_getD {xs : List Nat} (h : xs ≠ []) :
    xs.getLast? = some (xs.getD (xs.length - 1) 0) := by
  have hp : 0 < xs.length := List.length_pos.mpr h
  rw [List.getLast?_eq_getElem?, List.getD_eq_getElem?_getD,
    List.getElem?_eq_getElem (by omega : xs.length - 1 < xs.length)]
  rfl

theorem pySlice_length {xs : List α} {a b : Nat} (hb : b ≤ xs.length) :
    (pySlice xs a b).length = b - a := by
  unfold pySlice
  rw [List.length_take, List.length_drop, Nat.min_def]
  split <;> omega

end ListLemmas

end NFTS

namespace NFTS

section CumsumLemmas

theorem cumsumFrom_length (acc : Nat) (l : List Nat) :
    (cumsumFrom acc l).length = l.length := by
  induction l generalizing acc with
  | nil => rfl
  | cons x t ih => simp [cumsumFrom, ih]

theorem cumsum_diff (l : List Nat) :
    ∀ (acc i : Nat), i < l.length →
      (acc :: cumsumFrom acc l).getD (i + 1) 0 - (acc :: cumsumFrom acc l).getD i 0 =
        l.getD i 0 := by
  induction l with
  | nil => intro acc i h; simp at h
  | cons x t ih =>
    intro acc i h
    cases i with
    | zero => simp [cumsumFrom]
    | succ j =>
      have := ih (acc + x) j (by simpa using h)
      simpa [cumsumFrom] using this

theorem cumsum_pairwise (l : List Nat) :
    ∀ acc : Nat, List.Pairwise (· ≤ ·) (acc :: cumsumFrom acc l) := by
  induction l with
  | nil => intro acc; simp [cumsumFrom]
  | cons x t ih =>
    intro acc
    have h := ih (acc + x)
    refine List.Pairwise.cons ?_ h
    intro b hb
    rcases List.mem_cons.mp hb with rfl | hb
    · omega
    · have h2 := List.rel_of_pairwise_cons h hb
      omega

theorem cumsum_getLast (l : List Nat) :
    ∀ acc : Nat, (acc :: cumsumFrom acc l).getLast? = some (acc + l.sum) := by
  induction l with
  | nil => intro acc; simp [cumsumFrom]
  | cons x t ih =>
    intro acc
    have h := ih (acc + x)
    rw [cumsumFrom, List.getLast?_cons_cons, h]
    simp [Nat.add_assoc]

theorem cumsumFrom_append (l : List Nat) :
    ∀ (acc x : Nat), cumsumFrom acc (l ++ [x]) = cumsumFrom acc l ++ [acc + l.sum + x] := by
  induction l with
  | nil => intro acc x; simp [cumsumFrom]
  | cons y t ih =>
    intro acc x
    have h2 : acc + y + t.sum + x = acc + (y + t.sum) + x := by omega
    simp [cumsumFrom, ih (acc + y) x, h2]

theorem sum_map_add {α : Type} (l : List α) (f g : α → Nat) :
    (l.map (fun x => f x + g x)).sum = (l.map f).sum + (l.map g).sum := by
  induction l with
  | nil => rfl
  | cons x t ih => simp [ih]; omega

theorem teleSum (xs : List Nat) (hp : List.Pairwise (· ≤ ·) xs) :
    ∀ n, n < xs.length →
      ((List.range n).map (fun i => xs.getD (i + 1) 0 - xs.getD i 0)).sum =
        xs.getD n 0 - xs.getD 0 0 := by
  intro n
  induction n with
  | zero => intro h; simp
  | succ m ih =>
    intro h
    have hm : m < xs.length := by omega
    rw [List.range_succ, List.map_append, List.sum_append, ih hm]
    have h0m : xs.getD 0 0 ≤ xs.getD m 0 := pairwise_getD_mono hp (Nat.zero_le m) hm
    have hmm : xs.getD m 0 ≤ xs.getD (m + 1) 0 :=
      pairwise_getD_mono hp (Nat.le_succ m) h
    simp only [List.map_cons, List.map_nil, List.sum_cons, List.sum_nil]
    omega

theorem natMax_le_natMax {a b c d : Nat} (h1 : a ≤ b) (h2 : c ≤ d) :
    natMax a c ≤ natMax b d := by
  unfold natMax
  split <;> split <;> omega

theorem le_natMax_left (a b : Nat) : a ≤ natMax a b := by
  unfold natMax
  split <;> omega

theorem foldl_natMax_mono {is : List Nat} (f g : Nat → Nat)
    (hfg : ∀ i ∈ is, f i ≤ g i) :
    ∀ {a b : Nat}, a ≤ b → (is.map f).foldl natMax a ≤ (is.map g).foldl natMax b := by
  induction is with
  | nil => intro a b h; simpa using h
  | cons x t ih =>
    intro a b h
    simp only [List.map_cons, List.foldl_cons]
    refine ih (fun i hi => hfg i (List.mem_cons_of_mem x hi)) ?_
    exact natMax_le_natMax h (hfg x (List.mem_cons_self x t))



end CumsumLemmas

end NFTS

namespace NFTS

section CountLemmas

theorem firstSeenKeys_nodup (rows : List Row) : (firstSeenKeys rows).Nodup := by
  induction rows with
  | nil => simp [firstSeenKeys]
  | cons r t ih =>
    rw [firstSeenKeys]
    refine List.nodup_cons.mpr ⟨?_, List.Nodup.filter _ ih⟩
    intro hmem
    have h2 := List.of_mem_filter hmem
    simp at h2

theorem firstSeenKeys_complete {rows : List Row} {r : Row} (hr : r ∈ rows) :
    r.uid ∈ firstSeenKeys rows := by
  induction rows with
  | nil => cases hr
  | cons x t ih =>
    rcases List.mem_cons.mp hr with rfl | hm
    · exact List.mem_cons_self _ _
    · by_cases he : r.uid = x.uid
      · rw [firstSeenKeys, he]
        exact List.mem_cons_self _ _
      · rw [firstSeenKeys]
        refine List.mem_cons_of_mem _ ?_
        refine List.mem_filter.mpr ⟨ih hm, ?_⟩
        simpa using he

theorem countKey_nil (k : Nat) : countKey [] k = 0 := rfl

theorem countKey_cons (x : Row) (t : List Row) (k : Nat) :
    countKey (x :: t) k = (if x.uid == k then 1 else 0) + countKey t k := by
  by_cases h : (x.uid == k) = true
  · simp [countKey, List.filter_cons, h, Nat.add_comm]
  · simp [countKey, List.filter_cons, h]

theorem sum_indicator_zero {t : List Nat} {x : Nat} (hx : x ∉ t) :
    (t.map (fun k => if x == k then 1 else 0)).sum = 0 := by
  induction t with
  | nil => rfl
  | cons y u ih =>
    have hxy : ¬ (x == y) = true := by
      simp only [beq_iff_eq]
      intro he
      exact hx (he ▸ List.mem_cons_self y u)
    simp only [List.map_cons, List.sum_cons, if_neg hxy, Nat.zero_add]
    exact ih (fun hm => hx (List.mem_cons_of_mem y hm))

theorem sum_indicator_nodup {ks : List Nat} (hnd : ks.Nodup) {x : Nat} (hx : x ∈ ks) :
    (ks.map (fun k => if x == k then 1 else 0)).sum = 1 := by
  induction ks with
  | nil => cases hx
  | cons y t ih =>
    obtain ⟨hy, ht⟩ := List.nodup_cons.mp hnd
    by_cases he : x = y
    · subst he
      simp only [List.map_cons, List.sum_cons, beq_self_eq_true, if_true]
      rw [sum_indicator_zero hy]
    · have hxt : x ∈ t := by
        rcases List.mem_cons.mp hx with h | h
        · exact absurd h he
        · exact h
      have hxy : ¬ (x == y) = true := by simpa using he
      simp only [List.map_cons, List.sum_cons, if_neg hxy, Nat.zero_add]
      rw [ih ht hxt]

theorem sum_counts {ks : List Nat} (hnd : ks.Nodup) :
    ∀ {rows : List Row}, (∀ r ∈ rows, r.uid ∈ ks) →
      (ks.map (countKey rows)).sum = rows.length := by
  intro rows
  induction rows with
  | nil =>
    intro _
    have hz : ks.map (countKey []) = ks.map (fun _ => 0) := by
      refine List.map_congr_left ?_
      intro k _
      exact countKey_nil k
    rw [hz]
    simp
  | cons r t ih =>
    intro hall
    have h1 : ∀ x ∈ t, x.uid ∈ ks := fun x hx => hall x (List.mem_cons_of_mem r hx)
    have h2 : r.uid ∈ ks := hall r (List.mem_cons_self r t)
    calc (ks.map (countKey (r :: t))).sum
        = (ks.map (fun k => (if r.uid == k then 1 else 0) + countKey t k)).sum := by
          refine congrArg List.sum (List.map_congr_left ?_)
          intro k _
          exact countKey_cons r t k
      _ = (ks.map (fun k => if r.uid == k then 1 else 0)).sum + (ks.map (countKey t)).sum :=
          sum_map_add ks _ _
      _ = 1 + t.length := by rw [sum_indicator_nodup hnd h2, ih h1]
      _ = (r :: t).length := by simp [Nat.add_comm]

end CountLemmas

end NFTS

namespace NFTS

namespace TimeSeriesDataset

theorem fdRows_length (df : DataFrame) (sort_df : Bool) :
    (fdRows df sort_df).length = df.rows.length := by
  unfold fdRows
  split
  · exact List.length_insertionSort lexLe df.rows
  · rfl

theorem from_df_parts {df : DataFrame} {sdf : Option StaticDF} {b : Bool}
    {fr : FromDfResult} (h : from_df df sdf b = Except.ok fr) :
    fdSizes df b ≠ [] ∧
    fr.dataset.indptr = 0 :: cumsumFrom 0 (fdSizes df b) ∧
    fr.dataset.temporal.rows = (fdRows df b).map Row.vals ∧
    fr.dataset.temporal.ncols = df.cols.length ∧
    fr.dataset.max_size = (fdSizes df b).foldl natMax 0 ∧
    fr.dataset.temporal_cols = df.cols ++ ["available_mask"] ∧
    fr.dataset.sorted = b := by
  simp only [from_df] at h
  by_cases hs : (fdSizes df b).isEmpty = true
  · rw [if_pos hs] at h
    cases h
  · rw [if_neg hs] at h
    cases h
    refine ⟨?_, rfl, rfl, rfl, rfl, rfl, rfl⟩
    intro hemp
    exact hs (by rw [List.isEmpty_iff]; exact hemp)

theorem from_df_error {df : DataFrame} {sdf : Option StaticDF} {b : Bool}
    {e : PyErr} (h : from_df df sdf b = Except.error e) : e = PyErr.valueError := by
  simp only [from_df] at h
  by_cases hs : (fdSizes df b).isEmpty = true
  · rw [if_pos hs] at h
    cases h
    rfl
  · rw [if_neg hs] at h
    cases h

theorem from_df_offsetInvariants {df : DataFrame} {sdf : Option StaticDF} {b : Bool}
    {fr : FromDfResult} (h : from_df df sdf b = Except.ok fr) :
    offsetInvariants fr.dataset := by
  obtain ⟨hne, hip, hrows, _, _, _, _⟩ := from_df_parts h
  refine ⟨?_, ?_, ?_⟩
  · rw [hip]; rfl
  · rw [hip]; exact cumsum_pairwise _ 0
  · rw [hip, hrows, cumsum_getLast, List.length_map]
    refine congrArg some ?_
    have hsum : (fdSizes df b).sum = (fdRows df b).length := by
      unfold fdSizes
      exact sum_counts (firstSeenKeys_nodup _) (fun r hr => firstSeenKeys_complete hr)
    omega

theorem from_df_rows_length {df : DataFrame} {sdf : Option StaticDF} {b : Bool}
    {fr : FromDfResult} (h : from_df df sdf b = Except.ok fr) :
    fr.dataset.temporal.rows.length = df.rows.length := by
  obtain ⟨_, _, hrows, _, _, _, _⟩ := from_df_parts h
  rw [hrows, List.length_map, fdRows_length]

end TimeSeriesDataset

end NFTS

namespace NFTS

section NpGetLemmas

variable {α : Type}

theorem npGet_nat (xs : List α) (d : α) (i : Nat) (h : i < xs.length) :
    npGet xs d (i : Int) = Except.ok (xs.getD i d) := by
  unfold npGet
  rw [if_pos (Int.ofNat_nonneg i), if_pos (by exact_mod_cast h)]
  simp

theorem npGet_nat_oob (xs : List α) (d : α) (i : Nat) (h : xs.length ≤ i) :
    npGet xs d (i : Int) = Except.error PyErr.indexError := by
  unfold npGet
  rw [if_pos (Int.ofNat_nonneg i), if_neg (by exact_mod_cast Nat.not_lt.mpr h)]

theorem npGet_neg (xs : List α) (d : α) (i : Int) (hneg : i < 0)
    (h : 0 ≤ i + (xs.length : Int)) :
    npGet xs d i = Except.ok (xs.getD (i + (xs.length : Int)).toNat d) := by
  unfold npGet
  rw [if_neg (by omega), if_pos h]

theorem npGet_neg_oob (xs : List α) (d : α) (i : Int) (hneg : i < 0)
    (h : i + (xs.length : Int) < 0) :
    npGet xs d i = Except.error PyErr.indexError := by
  unfold npGet
  rw [if_neg (by omega), if_neg (by omega)]

end NpGetLemmas

namespace TimeSeriesDataset

theorem buildWindow_ok {rows : List (List Val)} {nc m : Nat} (hL1 : 1 ≤ rows.length)
    (hLm : rows.length ≤ m) :
    buildWindow { rows := rows, ncols := nc } (nc + 1) m = Except.ok
      ((List.range nc).map (fun c =>
        List.replicate (m - rows.length) (some 0) ++
          rows.map (fun r => r.getD c (some 0))) ++
      [List.replicate (m - rows.length) (some 0) ++
        List.replicate rows.length (some 1)]) := by
  have hL0 : ¬ rows.length = 0 := by omega
  have hW : m - (m - rows.length) = rows.length := by omega
  simp only [buildWindow, if_neg hL0, hW, Nat.add_sub_cancel]
  rw [if_pos (by simp), if_neg (Nat.succ_ne_zero nc)]
  refine congrArg Except.ok (congrArg₂ (· ++ ·) ?_ rfl)
  refine List.map_congr_left ?_
  intro c hc
  have hcn : c < nc := List.mem_range.mp hc
  refine congrArg (List.replicate (m - rows.length) (some 0) ++ ·) ?_
  calc (List.range rows.length).map (fun j =>
          (rows.getD (if rows.length = 1 then 0 else j) []).getD
            (if nc = 1 then 0 else c) (some 0))
      = (List.range rows.length).map (fun j => (rows.getD j []).getD c (some 0)) := by
        refine List.map_congr_left ?_
        intro j hj
        have hjL : j < rows.length := List.mem_range.mp hj
        have e1 : (if rows.length = 1 then 0 else j) = j := by
          split
          · omega
          · rfl
        have e2 : (if nc = 1 then 0 else c) = c := by
          split
          · omega
          · rfl
        rw [e1, e2]
    _ = rows.map (fun r => r.getD c (some 0)) :=
        map_range_getD rows (fun r => r.getD c (some 0)) []

theorem buildWindow_empty {ts : Tensor2} {nCols m : Nat} (hL : ts.rows.length = 0)
    (hm : 1 ≤ m) : buildWindow ts nCols m = Except.error PyErr.runtimeError := by
  simp only [buildWindow]
  rw [if_neg]
  rintro ⟨-, h2⟩
  simp [hL] at h2
  omega

end TimeSeriesDataset

end NFTS

namespace NFTS

namespace TimeSeriesDataset

theorem indptr_getD_le_rows {d : TimeSeriesDataset} (hpw : List.Pairwise (· ≤ ·) d.indptr)
    (hne : d.indptr ≠ []) (hlast : d.indptr.getLast? = some d.temporal.rows.length)
    {j : Nat} (hj : j < d.indptr.length) : d.indptr.getD j 0 ≤ d.temporal.rows.length := by
  have h1 : d.indptr.getD j 0 ≤ d.indptr.getD (d.indptr.length - 1) 0 :=
    pairwise_getD_mono hpw (by omega) (by omega)
  have h2 := (getLast?_eq_getD hne).symm.trans hlast
  have h3 := Option.some.inj h2
  omega

theorem groupRows_length {d : TimeSeriesDataset} (hpw : List.Pairwise (· ≤ ·) d.indptr)
    (hne : d.indptr ≠ []) (hlast : d.indptr.getLast? = some d.temporal.rows.length)
    {i : Nat} (hi : i < n_groups d) : (groupRows d i).length = groupLen d i := by
  have hlen1 : 1 ≤ d.indptr.length := List.length_pos.mpr hne
  have hng : n_groups d = d.indptr.length - 1 := rfl
  have hb : d.indptr.getD (i + 1) 0 ≤ d.temporal.rows.length :=
    indptr_getD_le_rows hpw hne hlast (by omega)
  rw [groupRows, pySlice_length hb]
  rfl

theorem getitem_ok_spec {d : TimeSeriesDataset} {i : Nat} (hwf : WF d)
    (hi : i < n_groups d) (h1 : 1 ≤ groupLen d i) (h2 : groupLen d i ≤ d.max_size) :
    getitem d (PyIdx.int (i : Int)) = Except.ok
      { temporal := (List.range d.temporal.ncols).map (fun c =>
            List.replicate (d.max_size - groupLen d i) (some 0) ++
              (groupRows d i).map (fun r => r.getD c (some 0))) ++
          [List.replicate (d.max_size - groupLen d i) (some 0) ++
            List.replicate (groupLen d i) (some 1)]
        temporal_cols := d.temporal_cols
        static := d.static.map (fun s => s.rows.getD i [])
        static_cols := d.static_cols } := by
  obtain ⟨htwf, hpw, hne, hlast, hcols, hlens, hstat⟩ := hwf
  have hlen1 : 1 ≤ d.indptr.length := List.length_pos.mpr hne
  have hng : n_groups d = d.indptr.length - 1 := rfl
  have hiL : i < d.indptr.length := by omega
  have hi1L : i + 1 < d.indptr.length := by omega
  have hbrows : d.indptr.getD (i + 1) 0 ≤ d.temporal.rows.length :=
    indptr_getD_le_rows hpw hne hlast hi1L
  have hsliceL :
      (pySlice d.temporal.rows (d.indptr.getD i 0) (d.indptr.getD (i + 1) 0)).length =
        groupLen d i := by
    rw [pySlice_length hbrows]
    rfl
  have hcast : (i : Int) + 1 = ((i + 1 : Nat) : Int) := by push_cast; ring
  simp only [getitem]
  rw [npGet_nat _ _ i hiL, ebind_ok, hcast, npGet_nat _ _ (i + 1) hi1L, ebind_ok, hcols]
  rw [buildWindow_ok (by rw [hsliceL]; exact h1) (by rw [hsliceL]; exact h2), ebind_ok]
  have hstatEq : (match d.static with
      | none => Except.ok none
      | some s => ebind (npGet s.rows [] (i : Int)) (fun srow => Except.ok (some srow)))
      = Except.ok (d.static.map (fun s => s.rows.getD i [])) := by
    cases hst : d.static with
    | none => rfl
    | some stt =>
      have hsl : stt.rows.length = n_groups d := by
        rw [hst] at hstat
        simpa using hstat
      dsimp only
      rw [npGet_nat stt.rows [] i (by omega), ebind_ok]
      rfl
  rw [hstatEq, ebind_ok, hsliceL]
  rfl

end TimeSeriesDataset

end NFTS

namespace NFTS

namespace TimeSeriesDataset

theorem getitem_empty_group {d : TimeSeriesDataset} {i : Nat}
    (hne : d.indptr ≠ []) (hi : i < n_groups d)
    (hlen0 : groupLen d i = 0) (hm : 1 ≤ d.max_size) :
    getitem d (PyIdx.int (i : Int)) = Except.error PyErr.runtimeError := by
  have hlen1 : 1 ≤ d.indptr.length := List.length_pos.mpr hne
  have hng : n_groups d = d.indptr.length - 1 := rfl
  have hiL : i < d.indptr.length := by omega
  have hi1L : i + 1 < d.indptr.length := by omega
  have hcast : (i : Int) + 1 = ((i + 1 : Nat) : Int) := by push_cast; ring
  have hsliceL :
      (pySlice d.temporal.rows (d.indptr.getD i 0) (d.indptr.getD (i + 1) 0)).length = 0 := by
    unfold pySlice
    rw [List.length_take]
    have : d.indptr.getD (i + 1) 0 - d.indptr.getD i 0 = 0 := hlen0
    omega
  simp only [getitem]
  rw [npGet_nat _ _ i hiL, ebind_ok, hcast, npGet_nat _ _ (i + 1) hi1L, ebind_ok]
  rw [buildWindow_empty hsliceL hm]
  rfl

theorem getitem_oob_high {d : TimeSeriesDataset} {i : Int}
    (hne : d.indptr ≠ []) (hi : (n_groups d : Int) ≤ i) :
    getitem d (PyIdx.int i) = Except.error PyErr.indexError := by
  have hlen1 : 1 ≤ d.indptr.length := List.length_pos.mpr hne
  have hng : n_groups d = d.indptr.length - 1 := rfl
  have h0 : 0 ≤ i := by
    have : (0 : Int) ≤ (n_groups d : Int) := Int.ofNat_nonneg _
    omega
  simp only [getitem]
  rcases Int.lt_or_le i (d.indptr.length : Int) with hlt | hge
  · have hie : i = ((i.toNat : Nat) : Int) := (Int.toNat_of_nonneg h0).symm
    have hitoN : i.toNat < d.indptr.length := by omega
    rw [hie, npGet_nat _ _ i.toNat hitoN, ebind_ok]
    have hcast : ((i.toNat : Nat) : Int) + 1 = ((i.toNat + 1 : Nat) : Int) := by push_cast; ring
    rw [hcast, npGet_nat_oob _ _ (i.toNat + 1) (by omega)]
    rfl
  · have hie : i = ((i.toNat : Nat) : Int) := (Int.toNat_of_nonneg h0).symm
    rw [hie, npGet_nat_oob _ _ i.toNat (by omega)]
    rfl

theorem getitem_neg_alias {d : TimeSeriesDataset} {i : Int}
    (hstat : d.static = none) (h2 : i ≤ -2) (h1 : -(n_groups d : Int) - 1 ≤ i) :
    getitem d (PyIdx.int i) = getitem d (PyIdx.int (i + (n_groups d : Int) + 1)) := by
  have hne : d.indptr ≠ [] := by
    intro hemp
    have : n_groups d = 0 := by rw [n_groups, hemp]; rfl
    omega
  have hlen1 : 1 ≤ d.indptr.length := List.length_pos.mpr hne
  have hlen : (d.indptr.length : Int) = (n_groups d : Int) + 1 := by
    rw [n_groups]
    omega
  have hj0 : 0 ≤ i + (n_groups d : Int) + 1 := by omega
  set j : Int := i + (n_groups d : Int) + 1 with hjdef
  have hjnat : j = ((j.toNat : Nat) : Int) := (Int.toNat_of_nonneg hj0).symm
  have hjL : j.toNat < d.indptr.length := by omega
  have hj1L : j.toNat + 1 < d.indptr.length := by omega
  simp only [getitem]
  rw [npGet_neg d.indptr 0 i (by omega) (by omega)]
  have ha : (i + (d.indptr.length : Int)).toNat = j.toNat := by omega
  rw [ha]
  have hcast1 : i + 1 < 0 := by omega
  rw [npGet_neg d.indptr 0 (i + 1) (by omega) (by omega)]
  have hb : (i + 1 + (d.indptr.length : Int)).toNat = j.toNat + 1 := by omega
  rw [hb]
  rw [hjnat, npGet_nat _ _ j.toNat hjL, ebind_ok, ebind_ok]
  have hcast2 : ((j.toNat : Nat) : Int) + 1 = ((j.toNat + 1 : Nat) : Int) := by push_cast; ring
  rw [hcast2, npGet_nat _ _ (j.toNat + 1) hj1L, ebind_ok, ebind_ok]
  rw [hstat]
  dsimp only
  have hc3 : ((j.toNat : Nat) : Int).toNat = j.toNat := by omega
  rw [hc3]

theorem getitem_neg_static_spec {d : TimeSeriesDataset} {s : Tensor2} (g : Nat)
    (hwf : WF d) (hst : d.static = some s)
    (hg1 : 1 ≤ g) (hgn : g < n_groups d) (hL1 : 1 ≤ groupLen d g) :
    getitem d (PyIdx.int ((g : Int) - (n_groups d : Int) - 1)) = Except.ok
      { temporal := (List.range d.temporal.ncols).map (fun c =>
            List.replicate (d.max_size - groupLen d g) (some 0) ++
              (groupRows d g).map (fun r => r.getD c (some 0))) ++
          [List.replicate (d.max_size - groupLen d g) (some 0) ++
            List.replicate (groupLen d g) (some 1)]
        temporal_cols := d.temporal_cols
        static := some (s.rows.getD (g - 1) [])
        static_cols := d.static_cols } := by
  obtain ⟨htwf, hpw, hne, hlast, hcols, hlens, hstat⟩ := hwf
  have hsl : s.rows.length = n_groups d := by
    rw [hst] at hstat
    simpa using hstat
  have hlenp : 1 ≤ d.indptr.length := List.length_pos.mpr hne
  have hlen : (d.indptr.length : Int) = (n_groups d : Int) + 1 := by
    rw [n_groups]
    omega
  have hslc : (s.rows.length : Int) = (n_groups d : Int) := by rw [hsl]
  set i : Int := (g : Int) - (n_groups d : Int) - 1 with hidef
  have hineg : i < 0 := by omega
  have hgL : g < d.indptr.length := by omega
  have hg1L : g + 1 < d.indptr.length := by
    have : n_groups d = d.indptr.length - 1 := rfl
    omega
  have hbrows : d.indptr.getD (g + 1) 0 ≤ d.temporal.rows.length :=
    indptr_getD_le_rows hpw hne hlast hg1L
  have hsliceL :
      (pySlice d.temporal.rows (d.indptr.getD g 0) (d.indptr.getD (g + 1) 0)).length =
        groupLen d g := by
    rw [pySlice_length hbrows]
    rfl
  simp only [getitem]
  rw [npGet_neg d.indptr 0 i hineg (by omega)]
  have ha : (i + (d.indptr.length : Int)).toNat = g := by omega
  rw [ha, ebind_ok]
  rw [npGet_neg d.indptr 0 (i + 1) (by omega) (by omega)]
  have hb : (i + 1 + (d.indptr.length : Int)).toNat = g + 1 := by omega
  rw [hb, ebind_ok, hcols]
  rw [buildWindow_ok (by rw [hsliceL]; exact hL1) (by rw [hsliceL]; exact hlens g hgn),
    ebind_ok, hsliceL, hst]
  dsimp only
  rw [npGet_neg s.rows [] i hineg (by omega)]
  have hc : (i + (s.rows.length : Int)).toNat = g - 1 := by omega
  rw [hc, ebind_ok, ebind_ok]
  rfl

theorem getitem_neg_static_oob {d : TimeSeriesDataset} {s : Tensor2}
    (hwf : WF d) (hst : d.static = some s) (hn : 1 ≤ n_groups d)
    (hL1 : 1 ≤ groupLen d 0) :
    getitem d (PyIdx.int (-(n_groups d : Int) - 1)) = Except.error PyErr.indexError := by
  obtain ⟨htwf, hpw, hne, hlast, hcols, hlens, hstat⟩ := hwf
  have hsl : s.rows.length = n_groups d := by
    rw [hst] at hstat
    simpa using hstat
  have hlenp : 1 ≤ d.indptr.length := List.length_pos.mpr hne
  have hlen : (d.indptr.length : Int) = (n_groups d : Int) + 1 := by
    rw [n_groups]
    omega
  have hslc : (s.rows.length : Int) = (n_groups d : Int) := by rw [hsl]
  set i : Int := -(n_groups d : Int) - 1 with hidef
  have hineg : i < 0 := by omega
  have h1L : 1 < d.indptr.length := by
    have : n_groups d = d.indptr.length - 1 := rfl
    omega
  have hbrows : d.indptr.getD 1 0 ≤ d.temporal.rows.length :=
    indptr_getD_le_rows hpw hne hlast h1L
  have hsliceL :
      (pySlice d.temporal.rows (d.indptr.getD 0 0) (d.indptr.getD 1 0)).length =
        groupLen d 0 := by
    rw [pySlice_length hbrows]
    rfl
  simp only [getitem]
  rw [npGet_neg d.indptr 0 i hineg (by omega)]
  have ha : (i + (d.indptr.length : Int)).toNat = 0 := by omega
  rw [ha, ebind_ok]
  rw [npGet_neg d.indptr 0 (i + 1) (by omega) (by omega)]
  have hb : (i + 1 + (d.indptr.length : Int)).toNat = 1 := by omega
  rw [hb, ebind_ok, hcols]
  have hz : (0 : Nat) + 1 = 1 := rfl
  rw [← hz]
  rw [buildWindow_ok (by rw [hz, hsliceL]; exact hL1)
    (by rw [hz, hsliceL]; exact hlens 0 hn), ebind_ok, hst]
  dsimp only
  rw [npGet_neg_oob s.rows [] i hineg (by omega), ebind_error, ebind_error]

end TimeSeriesDataset

end NFTS

namespace NFTS

open TimeSeriesDataset

/-- C1: for every store and every integer group index `i` with
`1 ≤ group_length(i) ≤ max_size`, `window(i)` returns an array of shape
`[channel_count + 1, max_size]` in which the group's rows appear,
channel-major and in original timestamp order, in the rightmost
`group_length(i)` columns; the leftmost `max_size - group_length(i)` columns
are zero on every feature channel; and the final availability-mask row is 1
exactly on the columns holding real data and 0 on the padded columns. -/
theorem C1_window_layout (d : TimeSeriesDataset) (i : Nat) (hwf : WF d)
    (hi : i < n_groups d) (h1 : 1 ≤ groupLen d i) (h2 : groupLen d i ≤ d.max_size) :
    ∃ it : Item, getitem d (PyIdx.int (i : Int)) = Except.ok it ∧
      it.temporal.length = d.temporal.ncols + 1 ∧
      (∀ row ∈ it.temporal, row.length = d.max_size) ∧
      (∀ c, c < d.temporal.ncols → it.temporal.getD c [] =
          List.replicate (d.max_size - groupLen d i) (some 0) ++
            (groupRows d i).map (fun r => r.getD c (some 0))) ∧
      it.temporal.getD d.temporal.ncols [] =
          List.replicate (d.max_size - groupLen d i) (some 0) ++
            List.replicate (groupLen d i) (some 1) := by
  obtain ⟨htwf, hpw, hne, hlast, hcols, hlens, hstat⟩ := hwf
  have hGR : (groupRows d i).length = groupLen d i := groupRows_length hpw hne hlast hi
  refine ⟨_, getitem_ok_spec ⟨htwf, hpw, hne, hlast, hcols, hlens, hstat⟩ hi h1 h2,
    ?_, ?_, ?_, ?_⟩
  · simp
  · intro row hrow
    rcases List.mem_append.mp hrow with hl | hr
    · obtain ⟨c, hc, rfl⟩ := List.mem_map.mp hl
      rw [List.length_append, List.length_replicate, List.length_map, hGR]
      omega
    · rcases List.mem_singleton.mp hr with rfl
      rw [List.length_append, List.length_replicate, List.length_replicate]
      omega
  · intro c hc
    rw [List.getD_append _ _ _ _ (by simpa using hc), getD_map_range _ _ hc]
  · rw [List.getD_append_right _ _ _ _ (by simp)]
    simp

/-- Witness for C1 at the section-8 example store, group index 1. -/
theorem C1_window_layout_witness :
    WF exStore ∧ 1 ≤ groupLen exStore 1 ∧ groupLen exStore 1 ≤ exStore.max_size ∧
    (∃ it : Item, getitem exStore (PyIdx.int ((1 : Nat) : Int)) = Except.ok it ∧
      it.temporal.length = exStore.temporal.ncols + 1 ∧
      (∀ row ∈ it.temporal, row.length = exStore.max_size) ∧
      (∀ c, c < exStore.temporal.ncols → it.temporal.getD c [] =
          List.replicate (exStore.max_size - groupLen exStore 1) (some 0) ++
            (groupRows exStore 1).map (fun r => r.getD c (some 0))) ∧
      it.temporal.getD exStore.temporal.ncols [] =
          List.replicate (exStore.max_size - groupLen exStore 1) (some 0) ++
            List.replicate (groupLen exStore 1) (some 1)) :=
  ⟨by decide, by decide, by decide,
    C1_window_layout exStore 1 (by decide) (by decide) (by decide) (by decide)⟩

/-- C6 counterexample: on the two-group example store the integer index
`-2` lies outside `0 ≤ i < n_groups`, yet the window request succeeds
(Python wrap-around aliases it to group 1) instead of failing. -/
theorem C6_counterexample :
    decide (0 ≤ (-2 : Int) ∧ (-2 : Int) < (n_groups exStore : Int)) = false ∧
    getitem exStore (PyIdx.int (-2)) =
      Except.ok { temporal := [[some 0, some 0, some 5], [some 0, some 0, some 1]],
                  temporal_cols := ["y", "available_mask"],
                  static := none, static_cols := none } := by decide

/-- C6 amended: a non-integer index fails with ValueError (the code's
InvalidIndexError); an integer `0 ≤ i < n_groups` succeeds on a well-formed
store with non-empty groups; an integer `i ≥ n_groups` fails with
IndexError; but integers below zero are not uniformly rejected — they
follow numpy wrap-around instead.  On a store without static data,
`-(n_groups+1) ≤ i ≤ -2` behaves exactly like the in-range index
`i + n_groups + 1`.  On a store with static data the wrap is skewed:
for `-n_groups ≤ i ≤ -2` the request succeeds with the window of group
`i + n_groups + 1` paired with the static row of group `i + n_groups`
(the `n_groups`-row static tensor wraps one group earlier than the
`(n_groups+1)`-entry offset array), and `i = -(n_groups+1)` fails with
IndexError at the static lookup. -/
theorem C6_index_validation_amended :
    (∀ d : TimeSeriesDataset, getitem d PyIdx.nonInt = Except.error PyErr.valueError) ∧
    (∀ (d : TimeSeriesDataset) (i : Nat), WF d → i < n_groups d → 1 ≤ groupLen d i →
      ∃ it : Item, getitem d (PyIdx.int (i : Int)) = Except.ok it) ∧
    (∀ (d : TimeSeriesDataset) (i : Int), d.indptr ≠ [] → (n_groups d : Int) ≤ i →
      getitem d (PyIdx.int i) = Except.error PyErr.indexError) ∧
    (∀ (d : TimeSeriesDataset) (i : Int), d.static = none → i ≤ -2 →
      -(n_groups d : Int) - 1 ≤ i →
      getitem d (PyIdx.int i) = getitem d (PyIdx.int (i + (n_groups d : Int) + 1))) ∧
    (∀ (d : TimeSeriesDataset) (s : Tensor2) (g : Nat), WF d → d.static = some s →
      1 ≤ g → g < n_groups d → 1 ≤ groupLen d g →
      getitem d (PyIdx.int ((g : Int) - (n_groups d : Int) - 1)) =
        (getitem d (PyIdx.int (g : Int))).map
          (fun it => { it with static := some (s.rows.getD (g - 1) []) })) ∧
    (∀ (d : TimeSeriesDataset) (s : Tensor2), WF d → d.static = some s →
      1 ≤ n_groups d → 1 ≤ groupLen d 0 →
      getitem d (PyIdx.int (-(n_groups d : Int) - 1)) =
        Except.error PyErr.indexError) := by
  refine ⟨fun d => rfl, ?_, ?_, ?_, ?_, ?_⟩
  · intro d i hwf hi h1
    exact ⟨_, getitem_ok_spec hwf hi h1 (hwf.2.2.2.2.2.1 i hi)⟩
  · intro d i hne hi
    exact getitem_oob_high hne hi
  · intro d i hstat h2 h1
    exact getitem_neg_alias hstat h2 h1
  · intro d s g hwf hst hg1 hgn hL1
    rw [getitem_neg_static_spec g hwf hst hg1 hgn hL1,
      getitem_ok_spec hwf hgn hL1 (hwf.2.2.2.2.2.1 g hgn)]
    rfl
  · intro d s hwf hst hn hL1
    exact getitem_neg_static_oob hwf hst hn hL1

/-- Witness for C6 amended: the in-range success, the high out-of-range
failure and the wrap-around alias on the static-free example store, plus
the skewed wrap (window of group 1 with the static row of group 0) and the
IndexError at `-(n_groups+1)` on the static-bearing example store. -/
theorem C6_index_validation_amended_witness :
    WF exStore ∧ WF exStoreS ∧
    (∃ it : Item, getitem exStore (PyIdx.int ((0 : Nat) : Int)) = Except.ok it) ∧
    getitem exStore (PyIdx.int 5) = Except.error PyErr.indexError ∧
    getitem exStore (PyIdx.int (-2)) =
      getitem exStore (PyIdx.int ((-2) + (n_groups exStore : Int) + 1)) ∧
    getitem exStoreS (PyIdx.int (((1 : Nat) : Int) - (n_groups exStoreS : Int) - 1)) =
      (getitem exStoreS (PyIdx.int ((1 : Nat) : Int))).map
        (fun it => { it with static := some [some 7] }) ∧
    getitem exStoreS (PyIdx.int (-(n_groups exStoreS : Int) - 1)) =
      Except.error PyErr.indexError :=
  ⟨by decide, by decide,
    C6_index_validation_amended.2.1 exStore 0 (by decide) (by decide) (by decide),
    C6_index_validation_amended.2.2.1 exStore 5 (by decide) (by decide),
    C6_index_validation_amended.2.2.2.1 exStore (-2) (by decide) (by decide) (by decide),
    C6_index_validation_amended.2.2.2.2.1 exStoreS
      { rows := [[some 7], [some 8]], ncols := 1 } 1 (by decide) (by decide) (by decide)
      (by decide) (by decide),
    C6_index_validation_amended.2.2.2.2.2 exStoreS
      { rows := [[some 7], [some 8]], ncols := 1 } (by decide) (by decide) (by decide)
      (by decide)⟩

/-- C7 counterexample: on a well-formed store whose group 0 is empty,
`window(0)` does not return an all-zero window — it raises (the zero-length
slice `[-0:]` selects the full width, so the feature assignment's shapes
mismatch). -/
theorem C7_counterexample :
    WF exEmptyGroupStore ∧ groupLen exEmptyGroupStore 0 = 0 ∧
    getitem exEmptyGroupStore (PyIdx.int ((0 : Nat) : Int)) =
      Except.error PyErr.runtimeError := by decide

/-- C7 amended: for a valid group index with `group_length(i) = 0` on a
store with `max_size ≥ 1`, `window(i)` fails with RuntimeError instead of
returning an all-zero window: the left-pad slice `[-0:]` selects all
`max_size` columns and the empty feature block cannot broadcast into
them. -/
theorem C7_empty_group_amended (d : TimeSeriesDataset) (i : Nat) (hne : d.indptr ≠ [])
    (hi : i < n_groups d) (hlen0 : groupLen d i = 0) (hm : 1 ≤ d.max_size) :
    getitem d (PyIdx.int (i : Int)) = Except.error PyErr.runtimeError :=
  getitem_empty_group hne hi hlen0 hm

/-- Witness for C7 amended at the empty-group example store. -/
theorem C7_empty_group_amended_witness :
    exEmptyGroupStore.indptr = [0, 0, 1] ∧ 0 < n_groups exEmptyGroupStore ∧
    groupLen exEmptyGroupStore 0 = 0 ∧ 1 ≤ exEmptyGroupStore.max_size ∧
    getitem exEmptyGroupStore (PyIdx.int ((0 : Nat) : Int)) =
      Except.error PyErr.runtimeError :=
  ⟨by decide, by decide, by decide, by decide,
    C7_empty_group_amended exEmptyGroupStore 0 (by decide) (by decide) (by decide) (by decide)⟩

end NFTS

namespace NFTS

theorem ebind_ok_iff {α β : Type} {x : Except PyErr α} {f : α → Except PyErr β} {b : β} :
    ebind x f = Except.ok b ↔ ∃ a, x = Except.ok a ∧ f a = Except.ok b := by
  cases x with
  | error e => simp [ebind]
  | ok a => simp [ebind]

theorem ebind_ne {α β : Type} {x : Except PyErr α} {f : α → Except PyErr β} {e : PyErr}
    (hx : x ≠ Except.error e) (hf : ∀ a, f a ≠ Except.error e) :
    ebind x f ≠ Except.error e := by
  cases x with
  | error e2 =>
    rw [ebind_error]
    intro h
    cases h
    exact hx rfl
  | ok a =>
    rw [ebind_ok]
    exact hf a

namespace TimeSeriesDataset

theorem assignRows_length {buf : List (List Val)} {a b : Nat} {src : Tensor2} {w : Nat}
    {out : List (List Val)} (h : assignRows buf a b src w = Except.ok out) :
    out.length = buf.length := by
  unfold assignRows at h
  by_cases hc : (src.rows.length = min b buf.length - min a buf.length ∨
      src.rows.length = 1) ∧ (src.ncols = w ∨ src.ncols = 1)
  · rw [if_pos hc] at h
    cases h
    rw [List.length_append, List.length_append, List.length_take, List.length_map,
      List.length_range, List.length_drop]
    omega
  · rw [if_neg hc] at h
    cases h

theorem mergeStep_ok_spec {dataset futr : TimeSeriesDataset} {colT : Nat} {st st2 : MergeState}
    {i : Nat} (h : mergeStep dataset futr colT st i = Except.ok st2) :
    st2.new_indptr = st.new_indptr ++ [st.acum + (groupLen dataset i + groupLen futr i)] ∧
    st2.acum = st.acum + (groupLen dataset i + groupLen futr i) ∧
    st2.new_max_size = natMax st.new_max_size (groupLen dataset i + groupLen futr i) ∧
    st2.new_temporal.length = st.new_temporal.length := by
  unfold mergeStep at h
  split at h
  · obtain ⟨t1, ht1, h2⟩ := ebind_ok_iff.mp h
    obtain ⟨t2, ht2, h3⟩ := ebind_ok_iff.mp h2
    cases h3
    refine ⟨rfl, rfl, rfl, ?_⟩
    rw [assignRows_length ht2, assignRows_length ht1]
  · cases h

theorem mergeLoop_ok_spec (dataset futr : TimeSeriesDataset) (colT : Nat) :
    ∀ (is : List Nat) (st st2 : MergeState),
      mergeLoop dataset futr colT st is = Except.ok st2 →
      st2.new_indptr = st.new_indptr ++
        cumsumFrom st.acum (is.map (fun i => groupLen dataset i + groupLen futr i)) ∧
      st2.acum = st.acum + (is.map (fun i => groupLen dataset i + groupLen futr i)).sum ∧
      st2.new_max_size =
        (is.map (fun i => groupLen dataset i + groupLen futr i)).foldl natMax st.new_max_size ∧
      st2.new_temporal.length = st.new_temporal.length := by
  intro is
  induction is with
  | nil =>
    intro st st2 h
    rw [mergeLoop] at h
    cases h
    simp [cumsumFrom]
  | cons i is ih =>
    intro st st2 h
    rw [mergeLoop] at h
    obtain ⟨stm, hstep, hrest⟩ := ebind_ok_iff.mp h
    obtain ⟨e1, e2, e3, e4⟩ := mergeStep_ok_spec hstep
    obtain ⟨f1, f2, f3, f4⟩ := ih stm st2 hrest
    refine ⟨?_, ?_, ?_, ?_⟩
    · rw [f1, e1, e2, List.map_cons, cumsumFrom, List.append_assoc]
      rfl
    · rw [f2, e2, List.map_cons, List.sum_cons]
      omega
    · rw [f3, e3, List.map_cons, List.foldl_cons]
    · rw [f4, e4]

theorem update_dataset_ok_spec {d : TimeSeriesDataset} {f : DataFrame} {d2 : TimeSeriesDataset}
    (h : update_dataset d f = Except.ok d2) :
    ∃ fr : FromDfResult,
      from_df (reorderColumns (futureDfAfterColumnAdd d f) d.temporal_cols.dropLast) none
        d.sorted = Except.ok fr ∧
      d2.indptr = 0 :: cumsumFrom 0
        ((List.range (n_groups d)).map (fun i => groupLen d i + groupLen fr.dataset i)) ∧
      d2.max_size = ((List.range (n_groups d)).map
        (fun i => groupLen d i + groupLen fr.dataset i)).foldl natMax 0 ∧
      d2.temporal.rows.length = d.temporal.rows.length +
        (reorderColumns (futureDfAfterColumnAdd d f) d.temporal_cols.dropLast).rows.length ∧
      d2.temporal.ncols = d.temporal.ncols ∧
      d2.static = d.static ∧
      d2.temporal_cols = d.temporal_cols.dropLast ++ ["available_mask"] := by
  simp only [update_dataset] at h
  obtain ⟨fr, hfr, h2⟩ := ebind_ok_iff.mp h
  obtain ⟨st, hst, h3⟩ := ebind_ok_iff.mp h2
  cases h3
  obtain ⟨l1, l2, l3, l4⟩ := mergeLoop_ok_spec d fr.dataset d.temporal.ncols
    (List.range (n_groups d)) _ _ hst
  refine ⟨fr, hfr, ?_, ?_, ?_, rfl, rfl, rfl⟩
  · rw [construct]
    simpa using l1
  · rw [construct]
    simpa using l3
  · rw [construct]
    simp only []
    rw [l4, List.length_replicate]

end TimeSeriesDataset

end NFTS

namespace NFTS

namespace TimeSeriesDataset

theorem assignRows_ne {buf : List (List Val)} {a b : Nat} {src : Tensor2} {w : Nat} :
    assignRows buf a b src w ≠ Except.error PyErr.mismatchedGroupsError := by
  unfold assignRows
  by_cases hc : (src.rows.length = min b buf.length - min a buf.length ∨
      src.rows.length = 1) ∧ (src.ncols = w ∨ src.ncols = 1)
  · rw [if_pos hc]
    intro h
    simp at h
  · rw [if_neg hc]
    intro h
    simp at h

theorem mergeStep_ne {dataset futr : TimeSeriesDataset} {colT : Nat} {st : MergeState}
    {i : Nat} : mergeStep dataset futr colT st i ≠ Except.error PyErr.mismatchedGroupsError := by
  unfold mergeStep
  by_cases hc : i + 1 < futr.indptr.length
  · rw [if_pos hc]
    refine ebind_ne assignRows_ne (fun t1 => ebind_ne assignRows_ne (fun t2 => ?_))
    intro h
    simp at h
  · rw [if_neg hc]
    intro h
    simp at h

theorem mergeLoop_ne {dataset futr : TimeSeriesDataset} {colT : Nat} :
    ∀ (is : List Nat) (st : MergeState),
      mergeLoop dataset futr colT st is ≠ Except.error PyErr.mismatchedGroupsError := by
  intro is
  induction is with
  | nil =>
    intro st
    rw [mergeLoop]
    simp
  | cons i is ih =>
    intro st
    rw [mergeLoop]
    exact ebind_ne mergeStep_ne (fun st2 => ih st2)

theorem from_df_ne_mismatch {df : DataFrame} {sdf : Option StaticDF} {b : Bool} :
    from_df df sdf b ≠ Except.error PyErr.mismatchedGroupsError := by
  intro h
  cases from_df_error h

theorem update_dataset_ne_mismatch (d : TimeSeriesDataset) (f : DataFrame) :
    update_dataset d f ≠ Except.error PyErr.mismatchedGroupsError := by
  simp only [update_dataset]
  refine ebind_ne from_df_ne_mismatch (fun fr => ?_)
  refine ebind_ne (mergeLoop_ne _ _) (fun st => ?_)
  simp

theorem sum_groupLens {d : TimeSeriesDataset} (hinv : offsetInvariants d) :
    ((List.range (n_groups d)).map (groupLen d)).sum = d.temporal.rows.length := by
  obtain ⟨h0, hpw, hlast⟩ := hinv
  have hne : d.indptr ≠ [] := by
    intro hemp
    rw [hemp] at hlast
    cases hlast
  have hlen1 : 1 ≤ d.indptr.length := List.length_pos.mpr hne
  have hn : n_groups d < d.indptr.length := by
    rw [n_groups]
    omega
  have htel := teleSum d.indptr hpw (n_groups d) hn
  have hlastval : d.indptr.getD (d.indptr.length - 1) 0 = d.temporal.rows.length :=
    Option.some.inj ((getLast?_eq_getD hne).symm.trans hlast)
  have hend : d.indptr.getD (n_groups d) 0 = d.temporal.rows.length := by
    rw [n_groups]
    exact hlastval
  calc ((List.range (n_groups d)).map (groupLen d)).sum
      = ((List.range (n_groups d)).map
          (fun i => d.indptr.getD (i + 1) 0 - d.indptr.getD i 0)).sum := by
        refine congrArg List.sum (List.map_congr_left ?_)
        intro i _
        rfl
    _ = d.indptr.getD (n_groups d) 0 - d.indptr.getD 0 0 := htel
    _ = d.temporal.rows.length := by omega

end TimeSeriesDataset

open TimeSeriesDataset

/-- C2: for every merge of a store `S` with a future table `F` via
`update_dataset` that returns a new store, every group satisfies
`new_group_length(i) = old_group_length(i) + future_group_length(i)`, and
`new_max_size ≥ old_max_size`.  The `max_size` hypothesis states that the
store's `max_size` does not exceed its maximal group length, which holds
for every store the converter or the merger builds. -/
theorem C2_merge_monotonic (d d2 : TimeSeriesDataset) (f : DataFrame)
    (fr : FromDfResult) (hmax : d.max_size ≤ maxGroupLen d)
    (hfr : from_df (reorderColumns (futureDfAfterColumnAdd d f) d.temporal_cols.dropLast)
      none d.sorted = Except.ok fr)
    (hok : update_dataset d f = Except.ok d2) :
    (∀ i, i < n_groups d → groupLen d2 i = groupLen d i + groupLen fr.dataset i) ∧
    d.max_size ≤ d2.max_size := by
  obtain ⟨fr2, hfr2, hip, hmx, _, _, _, _⟩ := update_dataset_ok_spec hok
  rw [hfr] at hfr2
  cases hfr2
  constructor
  · intro i hi
    rw [groupLen, hip, cumsum_diff _ 0 i (by simpa using hi),
      getD_map_range _ _ (by simpa using hi)]
  · rw [hmx]
    refine Nat.le_trans hmax ?_
    rw [maxGroupLen]
    exact foldl_natMax_mono (groupLen d) (fun i => groupLen d i + groupLen fr.dataset i)
      (fun i _ => Nat.le_add_right _ _) (Nat.le_refl 0)

/-- Witness for C2: merging one future row into the one-group store. -/
theorem C2_merge_monotonic_witness :
    exD.max_size ≤ maxGroupLen exD ∧
    from_df (reorderColumns (futureDfAfterColumnAdd exD exF2) exD.temporal_cols.dropLast)
      none exD.sorted = Except.ok exFr ∧
    update_dataset exD exF2 = Except.ok exDNew ∧
    ((∀ i, i < n_groups exD → groupLen exDNew i = groupLen exD i + groupLen exFr.dataset i) ∧
      exD.max_size ≤ exDNew.max_size) :=
  ⟨by decide, by decide, by decide,
    C2_merge_monotonic exD exDNew exF2 exFr (by decide) (by decide) (by decide)⟩

/-- C3: `update_dataset` leaves its `dataset` argument unchanged — the
body never assigns to any of its attributes — so its temporal buffer,
offsets, `max_size` and static table are identical before and after the
call, and every window computed on it afterwards equals the one computed
before (copy-on-write). -/
theorem C3_merge_immutable (d : TimeSeriesDataset) (f : DataFrame) :
    update_dataset_datasetPost d f = d ∧
    (update_dataset_datasetPost d f).temporal = d.temporal ∧
    (update_dataset_datasetPost d f).indptr = d.indptr ∧
    (update_dataset_datasetPost d f).max_size = d.max_size ∧
    (update_dataset_datasetPost d f).static = d.static ∧
    ∀ idx : PyIdx, getitem (update_dataset_datasetPost d f) idx = getitem d idx :=
  ⟨rfl, rfl, rfl, rfl, rfl, fun _ => rfl⟩

/-- C4 counterexample: `exD` is produced by the converter, and merging it
with a future table that has an extra group yields a store whose last
offset (2) differs from its temporal row count (3) — the merge loop only
walks the store's groups and leaves the extra future rows dangling. -/
theorem C4_offset_invariants_counterexample :
    from_df exDf1 none false =
      Except.ok { dataset := exD, indices := [1], dates := [1], index := [(1, 1)] } ∧
    (update_dataset exD exF4).map
        (fun d2 => (d2.indptr.getLast?, d2.temporal.rows.length)) =
      Except.ok (some 2, 3) ∧
    (update_dataset exD exF4).map
        (fun d2 => decide (d2.indptr.getLast? = some d2.temporal.rows.length)) =
      Except.ok false := by decide

/-- C4 amended: every store the converter builds satisfies the offset
invariants, and a store the merger builds satisfies them provided the
converted future table has exactly as many groups as the store (with more
future groups the returned store's last offset undercounts the buffer;
with fewer the merge raises). -/
theorem C4_offset_invariants_amended :
    (∀ (df : DataFrame) (sdf : Option StaticDF) (b : Bool) (fr : FromDfResult),
      from_df df sdf b = Except.ok fr → offsetInvariants fr.dataset) ∧
    (∀ (d : TimeSeriesDataset) (f : DataFrame) (fr : FromDfResult) (d2 : TimeSeriesDataset),
      offsetInvariants d →
      from_df (reorderColumns (futureDfAfterColumnAdd d f) d.temporal_cols.dropLast) none
        d.sorted = Except.ok fr →
      n_groups fr.dataset = n_groups d →
      update_dataset d f = Except.ok d2 →
      offsetInvariants d2) := by
  constructor
  · intro df sdf b fr h
    exact from_df_offsetInvariants h
  · intro d f fr d2 hinv hfr hng hok
    obtain ⟨fr2, hfr2, hip, hmx, hlen, hncols, hstatic, hcols⟩ := update_dataset_ok_spec hok
    rw [hfr] at hfr2
    cases hfr2
    have hfrinv : offsetInvariants fr.dataset := from_df_offsetInvariants hfr
    have hsum1 : ((List.range (n_groups d)).map (groupLen d)).sum =
        d.temporal.rows.length := sum_groupLens hinv
    have hsum2 : ((List.range (n_groups d)).map (groupLen fr.dataset)).sum =
        fr.dataset.temporal.rows.length := by
      rw [← hng]
      exact sum_groupLens hfrinv
    have hflen : fr.dataset.temporal.rows.length =
        (reorderColumns (futureDfAfterColumnAdd d f) d.temporal_cols.dropLast).rows.length :=
      from_df_rows_length hfr
    refine ⟨?_, ?_, ?_⟩
    · rw [hip]
      rfl
    · rw [hip]
      exact cumsum_pairwise _ 0
    · rw [hip, cumsum_getLast, hlen]
      refine congrArg some ?_
      rw [sum_map_add, hsum1, hsum2, hflen]
      omega

/-- Witness for C4 amended: the converter store `exD` and the merged store
`exDNew` both satisfy the offset invariants. -/
theorem C4_offset_invariants_amended_witness :
    offsetInvariants exD ∧ offsetInvariants exDNew :=
  ⟨C4_offset_invariants_amended.1 exDf1 none false
      { dataset := exD, indices := [1], dates := [1], index := [(1, 1)] } (by decide),
    C4_offset_invariants_amended.2 exD exF2 exFr exDNew (by decide) (by decide)
      (by decide) (by decide)⟩

/-- C5 counterexample: `exD5` is the converter's store for groups in order
`1, 2`; the future table `exF5` lists its groups in the opposite order
`2, 1`, yet `update_dataset` does not fail with any error — it returns a
store in which group 1's rows were extended with group 2's future row
(silent positional zip). -/
theorem C5_mismatch_validation_counterexample :
    from_df exDf5 none false =
      Except.ok { dataset := exD5, indices := [1, 2], dates := [1, 1],
                  index := [(1, 1), (2, 1)] } ∧
    firstSeenKeys exDf5.rows = [1, 2] ∧
    firstSeenKeys exF5.rows = [2, 1] ∧
    update_dataset exD5 exF5 =
      Except.ok (construct { rows := [[some 1], [some 60], [some 5], [some 70]], ncols := 1 }
        ["y"] [0, 2, 4] 2 none none false) := by decide

/-- C5 amended: `update_dataset` performs no group-correspondence
validation at all: no execution path raises `MismatchedGroupsError`, and a
future table whose group keys come in a different order is silently zipped
by position — on the concrete mismatched pair the merge succeeds and group
0 of the result holds the old row of group 1 followed by the future row of
group 2. -/
theorem C5_mismatch_validation_amended :
    (∀ (d : TimeSeriesDataset) (f : DataFrame),
      decide (update_dataset d f = Except.error PyErr.mismatchedGroupsError) = false) ∧
    (update_dataset exD5 exF5).map
        (fun d2 => pySlice d2.temporal.rows (d2.indptr.getD 0 0) (d2.indptr.getD 1 0)) =
      Except.ok [[some 1], [some 60]] :=
  ⟨fun d f => decide_eq_false (update_dataset_ne_mismatch d f), by decide⟩

end NFTS

namespace NFTS

theorem indexOf_append_left {c : String} {l1 : List String} (l2 : List String)
    (h : c ∈ l1) : (l1 ++ l2).indexOf c = l1.indexOf c := by
  induction l1 with
  | nil => cases h
  | cons x t ih =>
    rw [List.cons_append, List.indexOf_cons, List.indexOf_cons]
    cases hb : (x == c) with
    | true => rfl
    | false =>
      have hct : c ∈ t := by
        rcases List.mem_cons.mp h with rfl | hm
        · rw [beq_self_eq_true] at hb
          cases hb
        · exact hm
      simp only [Bool.cond_false]
      rw [ih hct]

theorem indexOf_append_self {c : String} {l1 : List String} (h : c ∉ l1) :
    (l1 ++ [c]).indexOf c = l1.length := by
  induction l1 with
  | nil => simp [List.indexOf_cons]
  | cons x t ih =>
    rw [List.cons_append, List.indexOf_cons]
    have hx : (x == c) = false :=
      beq_eq_false_iff_ne.mpr (fun he => h (List.mem_cons.mpr (Or.inl he.symm)))
    rw [hx]
    simp only [Bool.cond_false]
    rw [ih (fun hm => h (List.mem_cons_of_mem x hm))]
    rfl

namespace TimeSeriesDataset

theorem addColNone_preserve {f0cols : List String} {df : DataFrame} {c2 : String}
    (hwf : ∀ r ∈ df.rows, r.vals.length = df.cols.length)
    (hnull : ∀ c, c ∉ f0cols → c ∈ df.cols → ∀ r ∈ df.rows, lookupCol df c r = none)
    (hnotin : c2 ∉ df.cols) :
    (∀ r ∈ (addColNone df c2).rows, r.vals.length = (addColNone df c2).cols.length) ∧
    (∀ c, c ∉ f0cols → c ∈ (addColNone df c2).cols →
      ∀ r ∈ (addColNone df c2).rows, lookupCol (addColNone df c2) c r = none) := by
  constructor
  · intro r hr
    obtain ⟨r0, hr0, rfl⟩ := List.mem_map.mp hr
    simp only [addColNone, List.length_append]
    rw [hwf r0 hr0]
    simp
  · intro c hcf hcmem r hr
    obtain ⟨r0, hr0, rfl⟩ := List.mem_map.mp hr
    rcases List.mem_append.mp hcmem with hcold | hcnew
    · have hidx : (df.cols ++ [c2]).indexOf c = df.cols.indexOf c :=
        indexOf_append_left [c2] hcold
      have hlt : df.cols.indexOf c < df.cols.length := List.indexOf_lt_length.mpr hcold
      simp only [lookupCol, addColNone]
      rw [hidx, List.getD_append _ _ _ _ (by rw [hwf r0 hr0]; exact hlt)]
      exact hnull c hcf hcold r0 hr0
    · rcases List.mem_singleton.mp hcnew with rfl
      simp only [lookupCol, addColNone]
      rw [indexOf_append_self hnotin,
        List.getD_append_right _ _ _ _ (by rw [hwf r0 hr0])]
      rw [hwf r0 hr0]
      simp

theorem colAdd_fold_spec (f0cols : List String) :
    ∀ (cs : List String) (df : DataFrame),
      (∀ r ∈ df.rows, r.vals.length = df.cols.length) →
      (∀ c, c ∉ f0cols → c ∈ df.cols → ∀ r ∈ df.rows, lookupCol df c r = none) →
      (∀ r ∈ (cs.foldl (fun df c => if c ∈ df.cols then df else addColNone df c) df).rows,
        r.vals.length =
          (cs.foldl (fun df c => if c ∈ df.cols then df else addColNone df c) df).cols.length) ∧
      (∀ c, c ∈ cs ∨ c ∈ df.cols →
        c ∈ (cs.foldl (fun df c => if c ∈ df.cols then df else addColNone df c) df).cols) ∧
      (∃ e, (cs.foldl (fun df c => if c ∈ df.cols then df else addColNone df c) df).cols =
        df.cols ++ e) ∧
      (∀ c, c ∉ f0cols →
        c ∈ (cs.foldl (fun df c => if c ∈ df.cols then df else addColNone df c) df).cols →
        ∀ r ∈ (cs.foldl (fun df c => if c ∈ df.cols then df else addColNone df c) df).rows,
          lookupCol (cs.foldl (fun df c => if c ∈ df.cols then df else addColNone df c) df) c r
            = none) := by
  intro cs
  induction cs with
  | nil =>
    intro df hwf hnull
    refine ⟨hwf, ?_, ⟨[], by simp⟩, hnull⟩
    intro c hc
    rcases hc with hc | hc
    · cases hc
    · exact hc
  | cons c2 cs ih =>
    intro df hwf hnull
    simp only [List.foldl_cons]
    by_cases hin : c2 ∈ df.cols
    · rw [if_pos hin]
      obtain ⟨jA, jB, jC, jD⟩ := ih df hwf hnull
      refine ⟨jA, ?_, jC, jD⟩
      intro c hc
      rcases hc with hc | hc
      · rcases List.mem_cons.mp hc with rfl | hm
        · exact jB c (Or.inr hin)
        · exact jB c (Or.inl hm)
      · exact jB c (Or.inr hc)
    · rw [if_neg hin]
      obtain ⟨p1, p2⟩ := addColNone_preserve hwf hnull hin
      obtain ⟨jA, jB, jC, jD⟩ := ih (addColNone df c2) p1 p2
      refine ⟨jA, ?_, ?_, jD⟩
      · intro c hc
        have hsub : c ∈ (addColNone df c2).cols → _ := fun hm => jB c (Or.inr hm)
        rcases hc with hc | hc
        · rcases List.mem_cons.mp hc with rfl | hm
          · exact hsub (List.mem_append.mpr (Or.inr (List.mem_singleton.mpr rfl)))
          · exact jB c (Or.inl hm)
        · exact hsub (List.mem_append.mpr (Or.inl hc))
      · obtain ⟨e, he⟩ := jC
        refine ⟨[c2] ++ e, ?_⟩
        rw [he]
        simp [addColNone]

end TimeSeriesDataset

open TimeSeriesDataset

/-- C8: the converter attaches a static table whose group keys do not
match the series table's without any error — the code's own comment
`TODO: protect on equality of static_df + df indexes` marks the missing
check.  Here the series table holds group 1, the static table group 2, and
construction succeeds with the misaligned static row silently attached;
moreover no execution path of `from_df` can raise `StaticAlignmentError`. -/
theorem C8_static_alignment_bug :
    firstSeenKeys exDf1.rows = [1] ∧
    exS8.rows.map Prod.fst = [2] ∧
    from_df exDf1 (some exS8) false =
      Except.ok
        { dataset := (construct { rows := [[some 1]], ncols := 1 } ["y"] [0, 1] 1
            (some { rows := [[some 9]], ncols := 1 }) (some ["s"]) false),
          indices := [1], dates := [1], index := [(1, 1)] } ∧
    (∀ (df : DataFrame) (sdf : Option StaticDF) (b : Bool),
      decide (from_df df sdf b = Except.error PyErr.staticAlignmentError) = false) := by
  refine ⟨by decide, by decide, by decide, ?_⟩
  intro df sdf b
  refine decide_eq_false ?_
  intro h
  cases from_df_error h

/-- C9: structural equality is broken — `__eq__` (and `__repr__`) read
`self.data`/`other.data`, an attribute `TimeSeriesDataset` never assigns,
so the `hasattr(other, 'data')` guard makes every comparison between two
stores return `False`, even a store compared with itself whose temporal
buffer and offsets are trivially close and equal; static tables are never
compared at all. -/
theorem C9_eq_attribute_bug :
    hasattrData exStore = false ∧
    TimeSeriesDataset.eq exStore exStore = Except.ok false ∧
    exStore.temporal = exStore.temporal ∧
    exStore.indptr = exStore.indptr := by decide

/-- C10: `update_dataset` mutates its `future_df` argument in place: every
stored feature channel missing from the table's columns is appended to the
caller's object, filled with the null value, before conversion — so the
caller's table ends up with strictly more columns than it had. -/
theorem C10_future_df_mutation (d : TimeSeriesDataset) (f : DataFrame) (c : String)
    (hwf : ∀ r ∈ f.rows, r.vals.length = f.cols.length)
    (hc : c ∈ d.temporal_cols.dropLast) (hmiss : c ∉ f.cols) :
    c ∈ (futureDfAfterColumnAdd d f).cols ∧
    (∀ r ∈ (futureDfAfterColumnAdd d f).rows,
      lookupCol (futureDfAfterColumnAdd d f) c r = none) ∧
    f.cols.length < (futureDfAfterColumnAdd d f).cols.length := by
  simp only [futureDfAfterColumnAdd]
  obtain ⟨hA, hB, hC, hD⟩ := colAdd_fold_spec f.cols (d.temporal_cols.dropLast) f hwf
    (fun c2 hcf hcm => absurd hcm hcf)
  have hmem := hB c (Or.inl hc)
  refine ⟨hmem, hD c hmiss hmem, ?_⟩
  obtain ⟨e, he⟩ := hC
  have hce : c ∈ e := by
    have h2 := hmem
    rw [he] at h2
    rcases List.mem_append.mp h2 with hcl | hcr
    · exact absurd hcl hmiss
    · exact hcr
  have hpos : 0 < e.length :=
    List.length_pos.mpr (fun hemp => by rw [hemp] at hce; cases hce)
  rw [he, List.length_append]
  omega

/-- Witness for C10: channel `x` of the two-channel store is missing from
the future table and gets appended filled with nulls. -/
theorem C10_future_df_mutation_witness :
    (∀ r ∈ exF2.rows, r.vals.length = exF2.cols.length) ∧
    "x" ∈ exDx.temporal_cols.dropLast ∧
    ("x" ∈ (futureDfAfterColumnAdd exDx exF2).cols ∧
      (∀ r ∈ (futureDfAfterColumnAdd exDx exF2).rows,
        lookupCol (futureDfAfterColumnAdd exDx exF2) "x" r = none) ∧
      exF2.cols.length < (futureDfAfterColumnAdd exDx exF2).cols.length) :=
  ⟨by decide, by decide,
    C10_future_df_mutation exDx exF2 "x" (by decide) (by decide) (by decide)⟩

end NFTS
